import Mathlib

/-!
Verification of the Pinthenews location pipeline.

This file shallowly embeds the pipeline code of the repository:
  * `agents/location_agents.py` — the crew pipeline
    (`LocationExtractionTool._run` fence stripping,
    `GeocodingTool._run`, `EventSummarizationTool._run`,
    `NewsLocationMappingCrew.extract_and_process_locations`);
  * `src/mcp_integration.py` — the MCP variant
    (`_parse_location_response`, `_geocode_with_context`,
    `_geocode_with_fallbacks`, `_generate_enhanced_summary`);
  * `src/app.py` — the orchestrator `process_article_sync`
    (validation, dedup, post-filter, sort, cap).

Python strings are modelled as Lean `String`s whose operations are
spelled out over `String.data` (a list of code points), matching
Python's code-point semantics for `len`, slicing, `.strip()`,
`.lower()`, `.isdigit()`.  External services (the LLM completion
endpoint and the Nominatim geocoder) are modelled as oracle function
parameters; a `none`/`Except.error` value of an oracle models the
corresponding Python exception or miss.
-/

/-! ## Python string primitives -/

/-- Python `str.strip()` on a list of code points: drop leading and
trailing whitespace. -/
def pyStripChars (l : List Char) : List Char :=
  ((l.dropWhile Char.isWhitespace).reverse.dropWhile Char.isWhitespace).reverse

/-- Python `s.strip()`. -/
def pyStrip (s : String) : String := ⟨pyStripChars s.data⟩

/-- Python `s.lower()` (ASCII case folding, enough for this code base). -/
def pyLower (s : String) : String := ⟨s.data.map Char.toLower⟩

/-- Python `len(s)`: number of code points. -/
def pyLen (s : String) : Nat := s.data.length

/-- Python `s[:n]` for `n ≥ 0`. -/
def pyTake (s : String) (n : Nat) : String := ⟨s.data.take n⟩

/-- Python `s.isdigit()`: non-empty and all characters are digits. -/
def pyIsDigit (s : String) : Bool := !s.data.isEmpty && s.data.all Char.isDigit

/-- Python `any(c.isdigit() for c in s)`. -/
def pyHasDigit (s : String) : Bool := s.data.any Char.isDigit

/-- Python string comparison: strict lexicographic order on code points. -/
def lexLt : List Char → List Char → Bool
  | [], [] => false
  | [], _ :: _ => true
  | _ :: _, [] => false
  | a :: as, b :: bs => if a = b then lexLt as bs else decide (a.toNat < b.toNat)

/-- Python dictionary access `d[k]` on an optional field: raises
`KeyError` (modelled as `Except.error ()`) when the key is absent. -/
def getKey {α : Type} : Option α → Except Unit α
  | some a => .ok a
  | none => .error ()

/-! ## Data model (`agents/location_agents.py`) -/

/-- The `LocationData` dataclass of `agents/location_agents.py`.
Coordinates are carried abstractly as integers (no arithmetic is ever
performed on them); `none` models Python `None`. -/
structure LocationData where
  name : String
  type : String
  confidence : String
  context : String
  latitude : Option Int := none
  longitude : Option Int := none
  full_address : Option String := none
  event_summary : Option String := none
deriving DecidableEq

/-- A successful hit of the Nominatim geocoding service. -/
structure GeoHit where
  lat : Int
  lon : Int
  address : String
deriving DecidableEq

/-- One element of the JSON array parsed from the extraction model's
response: a Python dict whose keys may each be absent. -/
structure CandDict where
  location : Option String := none
  type : Option String := none
  confidence : Option String := none
  context : Option String := none
deriving DecidableEq

/-- `EventSummarizationTool._run` of `agents/location_agents.py`.
`model` is the Claude completion oracle; `none` models a raised
exception.  On success the tool returns the stripped model text; on any
error it returns the deterministic fallback
`"Events at {location}: {context[:100]}..."`. -/
def EventSummarizationTool_run (model : String → String → String → Option String)
    (location context full_article : String) : String :=
  match model location context full_article with
  | some t => pyStrip t
  | none => "Events at " ++ location ++ ": " ++ pyTake context 100 ++ "..."

/-- The per-candidate loop body of
`NewsLocationMappingCrew.extract_and_process_locations`, with the
dictionary accesses performed in source order; a missing key propagates
as a `KeyError`.  `geocode` models `GeocodingTool._run` (which never
raises: a Python-side exception or miss is its `success: false` JSON,
modelled as `none`). -/
def processCandLoop (geocode : String → Option GeoHit)
    (model : String → String → String → Option String)
    (article_text : String) : List CandDict → Except Unit (List LocationData)
  | [] => .ok []
  | loc :: rest =>
    match loc.location with
    | none => .error ()
    | some name =>
      match geocode name with
      | none => processCandLoop geocode model article_text rest
      | some hit =>
        match loc.context with
        | none => .error ()
        | some context =>
          let event_summary := EventSummarizationTool_run model name context article_text
          match loc.type with
          | none => .error ()
          | some ty =>
            match loc.confidence with
            | none => .error ()
            | some confidence =>
              match processCandLoop geocode model article_text rest with
              | .error e => .error e
              | .ok tail =>
                .ok ({ name := name, type := ty, confidence := confidence,
                       context := context,
                       latitude := some hit.lat, longitude := some hit.lon,
                       full_address := some hit.address,
                       event_summary := some event_summary } :: tail)

/-- `NewsLocationMappingCrew.extract_and_process_locations`: the JSON
parse outcome of the extraction response is passed as `parsed`
(`Except.error` models a `json.loads` failure); the whole body is
wrapped in `try/except` returning `[]`. -/
def extract_and_process_locations (geocode : String → Option GeoHit)
    (model : String → String → String → Option String)
    (article_text : String) (parsed : Except Unit (List CandDict)) : List LocationData :=
  match parsed with
  | .error _ => []
  | .ok cands =>
    match processCandLoop geocode model article_text cands with
    | .ok l => l
    | .error _ => []

/-! ## Code-fence stripping (`LocationExtractionTool._run` and
`MCPNewsLocationClient._parse_location_response`) -/

/-- The characters of the opening fence `"```json"`. -/
def fenceJson : List Char := "```json".data

/-- The characters of a bare fence `"```"`. -/
def fenceBare : List Char := "```".data

/-- Python `content[a:-3]` (slice from index `a` to three before the
end). -/
def pySliceToMinus3 (l : List Char) (a : Nat) : List Char :=
  (l.take (l.length - 3)).drop a

/-- The fence-stripping cleanup shared by `LocationExtractionTool._run`
(lines 142–145) and `_parse_location_response` (lines 250–253):
`content[7:-3]` after a `"```json"` fence, `content[3:-3]` after a bare
fence, otherwise unchanged. -/
def stripCodeFence (content : String) : String :=
  if fenceJson.isPrefixOf content.data then ⟨pySliceToMinus3 content.data 7⟩
  else if fenceBare.isPrefixOf content.data then ⟨pySliceToMinus3 content.data 3⟩
  else content

/-! ## MCP variant (`src/mcp_integration.py`) -/

/-- One location dict of the MCP pipeline after
`_parse_location_response` validation: the `location` key is present,
all other keys may be absent. -/
structure MCPLoc where
  location : String
  standardized_name : Option String := none
  type : Option String := none
  coordinates_hint : Option String := none
  related_locations : Option (List String) := none
  context : Option String := none
  importance : Option String := none
deriving DecidableEq

/-- A geocoded MCP location (the `{**location, latitude, ...}` merge). -/
structure MCPResolved where
  base : MCPLoc
  latitude : Int
  longitude : Int
  full_address : String
  geocoding_method : String
  geocoding_confidence : String
deriving DecidableEq

/-- The `fallback_strategies` list built by `_geocode_with_fallbacks`
(lines 319–328): raw name, standardized name (defaulting to the raw
name), `"{name}, {type}"` (type defaulting to `"place"`), and
`"{name}, {related[0]}"` when the `related_locations` list is present
and non-empty. -/
def fallbackStrategies (loc : MCPLoc) : List String :=
  [loc.location,
   loc.standardized_name.getD loc.location,
   loc.location ++ ", " ++ loc.type.getD "place"] ++
  (match loc.related_locations with
   | some (r :: _) => [loc.location ++ ", " ++ r]
   | _ => [])

/-- The merge performed on a fallback hit (lines 336–343). -/
def mkFallbackResolved (loc : MCPLoc) (hit : GeoHit) : MCPResolved :=
  { base := loc, latitude := hit.lat, longitude := hit.lon,
    full_address := hit.address,
    geocoding_method := "fallback", geocoding_confidence := "medium" }

/-- The strategy loop of `_geocode_with_fallbacks` (lines 330–348),
instrumented with the list of queries issued to the geocoding service
(each iteration issues exactly one `geolocator.geocode(strategy)`
call).  A raised geocoder exception behaves exactly like a miss
(`except: continue`), so the oracle's `none` models both. -/
def tryFallbackStrategies (geocode : String → Option GeoHit) (loc : MCPLoc) :
    List String → Option MCPResolved × List String
  | [] => (none, [])
  | q :: qs =>
    match geocode q with
    | some hit => (some (mkFallbackResolved loc hit), [q])
    | none =>
      let r := tryFallbackStrategies geocode loc qs
      (r.1, q :: r.2)

/-- `MCPNewsLocationClient._geocode_with_fallbacks`, returning the
result together with the queries issued. -/
def geocode_with_fallbacks (geocode : String → Option GeoHit) (loc : MCPLoc) :
    Option MCPResolved × List String :=
  tryFallbackStrategies geocode loc (fallbackStrategies loc)

/-- `MCPNewsLocationClient._generate_enhanced_summary`: on success the
stripped model text, on any error the fallback
`"Events at {name}: {context}"` with the *untruncated* context
(defaulting to `"Information available in article"`). -/
def generate_enhanced_summary (model : String → String → Option String)
    (loc : MCPLoc) (article_content : String) : String :=
  match model loc.location article_content with
  | some t => pyStrip t
  | none =>
    "Events at " ++ loc.location ++ ": " ++
      loc.context.getD "Information available in article"

/-! ## Orchestrator (`src/app.py`, `process_article_sync`) -/

/-- The `non_location_words` stopword set of `process_article_sync`
(lines 839–848; the Python set literal's duplicates are irrelevant to
membership). -/
def nonLocationWords : List String :=
  ["the", "and", "or", "but", "in", "on", "at", "to", "for", "of", "with", "by",
   "from", "up", "about", "into", "through", "during", "before", "after",
   "above", "below", "between", "among",
   "down", "out", "off", "over", "under",
   "again", "further", "then", "once", "here", "there", "when", "where",
   "why", "how", "all", "any", "both", "each", "few", "more", "most",
   "other", "some", "such", "no", "nor", "not", "only", "own", "same",
   "so", "than", "too", "very", "can", "will", "just", "should", "now"]

/-- The three post-filter `continue` conditions of
`process_article_sync` (lines 835–855): empty or short trimmed name,
stopword, purely-numeric trimmed name, or digit-containing name shorter
than five characters. -/
def droppedByFilter (loc : LocationData) : Bool :=
  (loc.name == "" || pyLen (pyStrip loc.name) < 2)
  || nonLocationWords.contains (pyStrip (pyLower loc.name))
  || (pyIsDigit (pyStrip loc.name)
      || (pyHasDigit loc.name && pyLen loc.name < 5))

/-- The deduplication key `f"{loc.name.lower()}_{loc.type}"`
(line 830): computed from the *untrimmed* name and the *raw* type. -/
def dedupKey (loc : LocationData) : String :=
  pyLower loc.name ++ "_" ++ loc.type

/-- One output record of `process_article_sync` (the `location_dict` of
lines 858–867). -/
structure LocDict where
  name : String
  type : String
  confidence : String
  context : String
  latitude : Option Int
  longitude : Option Int
  full_address : String
  event_summary : String
deriving DecidableEq

/-- Building `location_dict` from a `LocationData` (lines 858–867):
the name is trimmed and falsy fields are defaulted. -/
def toLocDict (loc : LocationData) : LocDict :=
  { name := pyStrip loc.name,
    type := if loc.type == "" then "unknown" else loc.type,
    confidence := if loc.confidence == "" then "medium" else loc.confidence,
    context := loc.context,
    latitude := loc.latitude,
    longitude := loc.longitude,
    full_address := loc.full_address.getD "",
    event_summary := loc.event_summary.getD "" }

/-- The dedup-and-filter loop of `process_article_sync`
(lines 828–870), keeping the emitted key with each record: skip when
the key was already emitted, skip when the post-filter drops the
candidate, otherwise emit and remember the key. -/
def processLoopKeyed (seen : List String) :
    List LocationData → List (String × LocDict)
  | [] => []
  | loc :: rest =>
    let key := dedupKey loc
    if seen.contains key then processLoopKeyed seen rest
    else if droppedByFilter loc then processLoopKeyed seen rest
    else (key, toLocDict loc) :: processLoopKeyed (key :: seen) rest

/-- The list of `location_dict`s accumulated by the loop. -/
def processLoop (seen : List String) (ld : List LocationData) : List LocDict :=
  (processLoopKeyed seen ld).map Prod.snd

/-- `sort_key` of `process_article_sync` (lines 873–877): Python
truthiness of the coordinates (so a zero coordinate counts as absent),
the confidence rank (defaulting to 2), and the name.  The name is kept
as its code-point list so that tuple comparison matches Python. -/
def sort_key (d : LocDict) : Nat × Nat × List Char :=
  (if (match d.latitude with | some x => x != 0 | none => false)
      && (match d.longitude with | some x => x != 0 | none => false)
   then 1 else 0,
   if d.confidence == "high" then 3
   else if d.confidence == "medium" then 2
   else if d.confidence == "low" then 1 else 2,
   d.name.data)

/-- Strict lexicographic comparison of sort keys, as Python compares
`(int, int, str)` tuples. -/
def keyLtB (x y : Nat × Nat × List Char) : Bool :=
  decide (x.1 < y.1)
  || (decide (x.1 = y.1)
      && (decide (x.2.1 < y.2.1)
          || (decide (x.2.1 = y.2.1) && lexLt x.2.2 y.2.2)))

/-- Stable descending insertion: place `a` before the first element
whose key is not greater than `a`'s.  This realises Python's stable
`list.sort(key=sort_key, reverse=True)`. -/
def insDesc (a : LocDict) : List LocDict → List LocDict
  | [] => [a]
  | b :: bs =>
    if keyLtB (sort_key a) (sort_key b) then b :: insDesc a bs
    else a :: b :: bs

/-- Python's `locations.sort(key=sort_key, reverse=True)`: stable
descending sort. -/
def pySortDesc : List LocDict → List LocDict
  | [] => []
  | a :: as => insDesc a (pySortDesc as)

/-- The caller-visible notices issued through `st.warning`/`st.info`. -/
inductive Notice where
  | tooShort
  | truncated
  | capped (found : Nat)
deriving DecidableEq

/-- The result of `process_article_sync`, together with the notices
issued and the text the crew system was invoked on (`none` when it was
not invoked). -/
structure SyncResult where
  locations : List LocDict
  notices : List Notice
  crewInput : Option String
deriving DecidableEq

/-- The text actually handed to the crew system: truncated to its
first 10,000 characters when longer (lines 815–817). -/
def effectiveText (article_text : String) : String :=
  if 10000 < pyLen article_text then pyTake article_text 10000 else article_text

/-- The dedup-filtered, sorted location list of `process_article_sync`,
before the cap. -/
def sortedLocations (crew : String → List LocationData) (text : String) :
    List LocDict :=
  pySortDesc (processLoop [] (crew text))

/-- `process_article_sync` (lines 802–900).  `crew` is
`extract_and_process_locations` of the crew system, passed as an oracle
so the orchestrator's own logic can be stated for every behaviour of
the external services.  Steps: reject empty/whitespace text silently,
reject trimmed text under 10 characters with a warning, truncate text
over 10,000 characters with a notice, run the crew, dedup/filter,
stable-sort descending, and cap at 50 entries with a notice. -/
def process_article_sync (crew : String → List LocationData)
    (article_text : String) : SyncResult :=
  if pyStrip article_text == "" then ⟨[], [], none⟩
  else if pyLen (pyStrip article_text) < 10 then ⟨[], [.tooShort], none⟩
  else if 50 < (sortedLocations crew (effectiveText article_text)).length then
    ⟨(sortedLocations crew (effectiveText article_text)).take 50,
     (if 10000 < pyLen article_text then [Notice.truncated] else [])
       ++ [.capped (sortedLocations crew (effectiveText article_text)).length],
     some (effectiveText article_text)⟩
  else
    ⟨sortedLocations crew (effectiveText article_text),
     if 10000 < pyLen article_text then [Notice.truncated] else [],
     some (effectiveText article_text)⟩

/-! ## Specification-side definitions

These definitions follow the words of the specification, to be compared
with the code-side definitions above. -/

/-- Modelled from the spec: keep the first occurrence of each
deduplication key (spec §4.5 step 6). -/
def dedupFirstBy (seen : List String) : List LocationData → List LocationData
  | [] => []
  | loc :: rest =>
    if seen.contains (dedupKey loc) then dedupFirstBy seen rest
    else loc :: dedupFirstBy (dedupKey loc :: seen) rest

/-- The claim's deduplication key over an *output* record: lower-cased
name concatenated with type. -/
def claimOutKey (d : LocDict) : String := pyLower d.name ++ d.type

/-- The claim's composite sort key (claim C6): `hasCoordinates` is `1`
exactly when the entry's latitude and longitude are non-null. -/
def claimSortKey (d : LocDict) : Nat × Nat × List Char :=
  (if d.latitude.isSome && d.longitude.isSome then 1 else 0,
   if d.confidence == "high" then 3
   else if d.confidence == "medium" then 2
   else if d.confidence == "low" then 1 else 2,
   d.name.data)

/-- The claim's post-filter predicate (claim C7), read literally:
"purely numeric" and "contains a digit" refer to the raw name, the
first two conditions to the trimmed name. -/
def claimDrop (loc : LocationData) : Bool :=
  pyLen (pyStrip loc.name) < 2
  || nonLocationWords.contains (pyStrip (pyLower loc.name))
  || pyIsDigit loc.name
  || (pyHasDigit loc.name && pyLen loc.name < 5)

/-! ## Helper lemmas: the stable descending sort -/

theorem lexLt_asymm : ∀ {a b : List Char}, lexLt a b = true → lexLt b a = false
  | [], [], h => by simp [lexLt] at h
  | [], _ :: _, _ => by simp [lexLt]
  | _ :: _, [], h => by simp [lexLt] at h
  | a :: as, b :: bs, h => by
    by_cases hab : a = b
    · subst hab
      simp only [lexLt, if_pos rfl] at h ⊢
      exact lexLt_asymm h
    · simp only [lexLt, if_neg hab, decide_eq_true_eq] at h
      simp only [lexLt, if_neg (Ne.symm hab), decide_eq_false_iff_not]
      exact Nat.lt_asymm h

theorem keyLtB_asymm {x y : Nat × Nat × List Char} (h : keyLtB x y = true) :
    keyLtB y x = false := by
  simp only [keyLtB, Bool.or_eq_true, Bool.and_eq_true, decide_eq_true_eq] at h
  simp only [keyLtB, Bool.or_eq_false_iff, Bool.and_eq_false_iff,
    decide_eq_false_iff_not]
  rcases h with h1 | ⟨he1, h2 | ⟨he2, h3⟩⟩
  · exact ⟨Nat.lt_asymm h1, .inl (Nat.ne_of_lt' h1)⟩
  · refine ⟨by omega, .inr ⟨Nat.lt_asymm h2, .inl (Nat.ne_of_lt' h2)⟩⟩
  · exact ⟨by omega, .inr ⟨by omega, .inr (by simp [he2, lexLt_asymm h3])⟩⟩

/-- The relation holding along the sorted output: the earlier entry's
key is not smaller than the later entry's. -/
def sortedRel (a b : LocDict) : Prop := keyLtB (sort_key a) (sort_key b) = false

instance : DecidableRel sortedRel := fun a b =>
  inferInstanceAs (Decidable (keyLtB (sort_key a) (sort_key b) = false))

theorem head?_insDesc (a : LocDict) (l : List LocDict) :
    (insDesc a l).head? = some a ∨ (insDesc a l).head? = l.head? := by
  cases l with
  | nil => exact .inl rfl
  | cons b bs =>
    by_cases h : keyLtB (sort_key a) (sort_key b) = true
    · simp [insDesc, h]
    · simp [insDesc, h]

theorem chain'_insDesc {a : LocDict} {l : List LocDict}
    (hl : List.Chain' sortedRel l) : List.Chain' sortedRel (insDesc a l) := by
  induction l with
  | nil => simp [insDesc]
  | cons b bs ih =>
    by_cases h : keyLtB (sort_key a) (sort_key b) = true
    · simp only [insDesc, if_pos h]
      rw [List.chain'_cons']
      refine ⟨?_, ih hl.tail⟩
      intro y hy
      rcases head?_insDesc a bs with h' | h'
      · rw [h'] at hy
        cases hy
        exact keyLtB_asymm h
      · rw [h'] at hy
        exact (List.chain'_cons'.mp hl).1 y hy
    · simp only [insDesc, if_neg h]
      rw [List.chain'_cons']
      refine ⟨?_, hl⟩
      intro y hy
      cases hy
      exact Bool.eq_false_iff.mpr h

theorem chain'_pySortDesc (l : List LocDict) :
    List.Chain' sortedRel (pySortDesc l) := by
  induction l with
  | nil => simp [pySortDesc]
  | cons a as ih => exact chain'_insDesc ih

theorem mem_insDesc {x a : LocDict} {l : List LocDict} :
    x ∈ insDesc a l ↔ x = a ∨ x ∈ l := by
  induction l with
  | nil => simp [insDesc]
  | cons b bs ih =>
    by_cases h : keyLtB (sort_key a) (sort_key b) = true
    · simp [insDesc, h, ih]
      tauto
    · simp [insDesc, h]

theorem mem_pySortDesc {x : LocDict} {l : List LocDict} :
    x ∈ pySortDesc l ↔ x ∈ l := by
  induction l with
  | nil => simp [pySortDesc]
  | cons a as ih => simp [pySortDesc, mem_insDesc, ih]

/-! ## Helper lemmas: deduplication -/

theorem processLoopKeyed_eq_dedup (ld : List LocationData) (seen : List String) :
    processLoopKeyed seen ld =
      (dedupFirstBy seen (ld.filter (fun l => !droppedByFilter l))).map
        (fun l => (dedupKey l, toLocDict l)) := by
  induction ld generalizing seen with
  | nil => rfl
  | cons loc rest ih =>
    by_cases hs : dedupKey loc ∈ seen <;>
      by_cases hd : droppedByFilter loc <;>
        simp [processLoopKeyed, List.filter_cons, hs, hd, dedupFirstBy, ih]

theorem mem_dedupFirstBy_not_seen {x : LocationData} :
    ∀ {ld : List LocationData} {seen : List String},
      x ∈ dedupFirstBy seen ld → dedupKey x ∉ seen
  | [], _, h => by simp [dedupFirstBy] at h
  | loc :: rest, seen, h => by
    by_cases hs : seen.contains (dedupKey loc)
    · rw [dedupFirstBy, if_pos hs] at h
      exact mem_dedupFirstBy_not_seen h
    · rw [dedupFirstBy, if_neg hs] at h
      rcases List.mem_cons.mp h with rfl | h'
      · exact fun hmem => hs (List.elem_iff.mpr hmem)
      · have := mem_dedupFirstBy_not_seen h'
        intro hmem
        exact this (List.mem_cons_of_mem _ hmem)

theorem pairwise_dedupFirstBy :
    ∀ (ld : List LocationData) (seen : List String),
      List.Pairwise (fun a b => dedupKey a ≠ dedupKey b) (dedupFirstBy seen ld)
  | [], _ => by simp [dedupFirstBy]
  | loc :: rest, seen => by
    by_cases hs : seen.contains (dedupKey loc)
    · rw [dedupFirstBy, if_pos hs]
      exact pairwise_dedupFirstBy rest seen
    · rw [dedupFirstBy, if_neg hs]
      refine List.pairwise_cons.mpr ⟨?_, pairwise_dedupFirstBy rest _⟩
      intro b hb heq
      exact mem_dedupFirstBy_not_seen hb (heq ▸ List.mem_cons_self _ _)

/-! ## Helper lemmas: the crew candidate loop -/

theorem processCandLoop_ok_coords
    (geocode : String → Option GeoHit) (model : String → String → String → Option String)
    (article_text : String) :
    ∀ (cands : List CandDict) (l : List LocationData),
      processCandLoop geocode model article_text cands = .ok l →
      ∀ x ∈ l, x.latitude.isSome ∧ x.longitude.isSome
  | [], l, h => by
    rw [processCandLoop] at h
    cases h
    intro x hx
    cases hx
  | loc :: rest, l, h => by
    rw [processCandLoop] at h
    cases hloc : loc.location with
    | none => simp only [hloc, reduceCtorEq] at h
    | some name =>
      simp only [hloc] at h
      cases hg : geocode name with
      | none =>
        simp only [hg] at h
        exact processCandLoop_ok_coords geocode model article_text rest l h
      | some hit =>
        simp only [hg] at h
        cases hctx : loc.context with
        | none => simp only [hctx, reduceCtorEq] at h
        | some context =>
          simp only [hctx] at h
          cases hty : loc.type with
          | none => simp only [hty, reduceCtorEq] at h
          | some ty =>
            simp only [hty] at h
            cases hconf : loc.confidence with
            | none => simp only [hconf, reduceCtorEq] at h
            | some confidence =>
              simp only [hconf] at h
              cases hrec : processCandLoop geocode model article_text rest with
              | error e => simp only [hrec, reduceCtorEq] at h
              | ok tail =>
                simp only [hrec, Except.ok.injEq] at h
                subst h
                intro x hx
                rcases List.mem_cons.mp hx with rfl | hx'
                · exact ⟨rfl, rfl⟩
                · exact processCandLoop_ok_coords geocode model article_text rest tail hrec x hx'

theorem extract_and_process_locations_coords
    (geocode : String → Option GeoHit) (model : String → String → String → Option String)
    (article_text : String) (parsed : Except Unit (List CandDict)) :
    ∀ x ∈ extract_and_process_locations geocode model article_text parsed,
      x.latitude.isSome ∧ x.longitude.isSome := by
  intro x hx
  cases parsed with
  | error e => simp [extract_and_process_locations] at hx
  | ok cands =>
    rw [extract_and_process_locations] at hx
    cases hloop : processCandLoop geocode model article_text cands with
    | error e => rw [hloop] at hx; cases hx
    | ok l =>
      rw [hloop] at hx
      exact processCandLoop_ok_coords geocode model article_text cands l hloop x hx

theorem mem_processLoop {d : LocDict} :
    ∀ {ld : List LocationData} {seen : List String},
      d ∈ processLoop seen ld → ∃ loc ∈ ld, d = toLocDict loc := by
  intro ld
  induction ld with
  | nil => intro seen h; simp [processLoop, processLoopKeyed] at h
  | cons loc rest ih =>
    intro seen h
    rw [processLoop, processLoopKeyed] at h
    by_cases hs : seen.contains (dedupKey loc)
    · rw [if_pos hs] at h
      obtain ⟨x, hx, he⟩ := ih h
      exact ⟨x, List.mem_cons_of_mem _ hx, he⟩
    · rw [if_neg hs] at h
      by_cases hd : droppedByFilter loc
      · rw [if_pos hd] at h
        obtain ⟨x, hx, he⟩ := ih h
        exact ⟨x, List.mem_cons_of_mem _ hx, he⟩
      · rw [if_neg hd] at h
        rcases List.mem_cons.mp h with rfl | h'
        · exact ⟨loc, List.mem_cons_self _ _, rfl⟩
        · obtain ⟨x, hx, he⟩ := ih h'
          exact ⟨x, List.mem_cons_of_mem _ hx, he⟩

/-! ## Helper lemmas: fallback geocoding -/

theorem tryFallbackStrategies_spec (geocode : String → Option GeoHit) (loc : MCPLoc) :
    ∀ qs : List String,
      (tryFallbackStrategies geocode loc qs).2 =
        qs.takeWhile (fun q => (geocode q).isNone)
          ++ (qs.dropWhile (fun q => (geocode q).isNone)).take 1
      ∧ (tryFallbackStrategies geocode loc qs).1 =
          (match qs.dropWhile (fun q => (geocode q).isNone) with
           | [] => none
           | q :: _ => (geocode q).map (mkFallbackResolved loc))
  | [] => by simp [tryFallbackStrategies]
  | q :: qs => by
    cases hg : geocode q with
    | some hit =>
      simp [tryFallbackStrategies, hg, List.takeWhile_cons, List.dropWhile_cons]
    | none =>
      have ih := tryFallbackStrategies_spec geocode loc qs
      simp [tryFallbackStrategies, hg, List.takeWhile_cons, List.dropWhile_cons, ih.1, ih.2]

/-! ## Helper lemmas: code fences -/

theorem isPrefixOf_append_self : ∀ (p l : List Char), p.isPrefixOf (p ++ l) = true
  | [], l => by cases l <;> rfl
  | a :: as, l => by
    simp only [List.cons_append, List.isPrefixOf_cons₂_self]
    exact isPrefixOf_append_self as l

/-! ## Claim theorems -/

/-- Claim C10 (confirmed).  The extractor's code-fence stripping drops
the first seven and last three characters whenever the response begins
with a json fence: for every payload `s` the wrapped response
round-trips to exactly `s`, while the concrete response
`"```json[1,2,3]"`, which begins with a fence but does not end with
one, loses the last three characters of its actual payload `[1,2,3]`,
leaving `"[1,2"`. -/
theorem fence_strip_roundtrip_and_loss :
    (∀ s : String, stripCodeFence ("```json" ++ s ++ "```") = s)
    ∧ stripCodeFence "```json[1,2,3]" = "[1,2" := by
  constructor
  · intro s
    obtain ⟨l⟩ := s
    have hdata : (("```json" : String) ++ ⟨l⟩ ++ "```").data
        = (fenceJson ++ l) ++ fenceBare := by
      simp [String.instAppend, String.append, fenceJson, fenceBare]
    have hpre : fenceJson.isPrefixOf ((fenceJson ++ l) ++ fenceBare) = true := by
      rw [List.append_assoc]
      exact isPrefixOf_append_self _ _
    rw [stripCodeFence, hdata, if_pos hpre]
    have hlen : ((fenceJson ++ l) ++ fenceBare).length - 3 = (fenceJson ++ l).length := by
      simp [fenceJson, fenceBare]
    show String.mk _ = String.mk l
    rw [pySliceToMinus3, hlen, List.take_left]
    rw [@List.drop_left' Char fenceJson l 7 rfl]
  · rfl

/-- Claim C3 (confirmed): the claimed fallback-query order, written out
from the specification text. -/
def claimFallbackOrder (loc : MCPLoc) (sn t : String) : List String :=
  [loc.location, sn, loc.location ++ ", " ++ t] ++
    (match loc.related_locations with
     | some (r :: _) => [loc.location ++ ", " ++ r]
     | _ => [])

/-- Claim C3 (confirmed).  For a candidate with a standardized name and
a type, the fallback geocoder issues exactly the claimed queries — raw
name, standardized name, `"{name}, {type}"`, then
`"{name}, {firstRelatedLocation}"` only when related locations exist —
in that order, stopping at the first hit; the result is built from the
first hit, and is `none` exactly when every strategy misses. -/
theorem geocode_fallback_order (geocode : String → Option GeoHit) (loc : MCPLoc)
    (sn t : String) (hsn : loc.standardized_name = some sn) (ht : loc.type = some t) :
    (geocode_with_fallbacks geocode loc).2 =
      (claimFallbackOrder loc sn t).takeWhile (fun q => (geocode q).isNone)
        ++ ((claimFallbackOrder loc sn t).dropWhile (fun q => (geocode q).isNone)).take 1
    ∧ (geocode_with_fallbacks geocode loc).1 =
        (match (claimFallbackOrder loc sn t).dropWhile (fun q => (geocode q).isNone) with
         | [] => none
         | q :: _ => (geocode q).map (mkFallbackResolved loc)) := by
  have hstrat : fallbackStrategies loc = claimFallbackOrder loc sn t := by
    simp [fallbackStrategies, claimFallbackOrder, hsn, ht]
  rw [geocode_with_fallbacks, hstrat]
  exact tryFallbackStrategies_spec geocode loc (claimFallbackOrder loc sn t)

def c3Loc : MCPLoc :=
  { location := "Springfield", standardized_name := some "Springfield, Illinois",
    type := some "city", related_locations := some ["Illinois"] }

def c3Geocoder : String → Option GeoHit :=
  fun q => if q == "Springfield, city" then some ⟨1, 2, "Springfield"⟩ else none

/-- Witness for C3: a candidate whose first two queries miss and whose
third hits; exactly the first three queries are issued, in the claimed
order, and the result comes from the third. -/
theorem geocode_fallback_order_witness :
    (geocode_with_fallbacks c3Geocoder c3Loc).2 =
      ["Springfield", "Springfield, Illinois", "Springfield, city"]
    ∧ (geocode_with_fallbacks c3Geocoder c3Loc).1 =
        some (mkFallbackResolved c3Loc ⟨1, 2, "Springfield"⟩) := by
  have h := geocode_fallback_order c3Geocoder c3Loc "Springfield, Illinois" "city" rfl rfl
  exact ⟨h.1.trans (by decide), h.2.trans (by decide)⟩

def c4Loc : MCPLoc := { location := "Paris", context := some "met in Paris" }

def c4FailingModel2 : String → String → Option String := fun _ _ => none

/-- Counterexample for C4.  The MCP-variant summarizer
(`_generate_enhanced_summary`), one of the two summarizers the claim
covers, does not return the claimed fallback string when its model call
fails: it emits the context untruncated and without the `"..."`
suffix. -/
theorem mcp_summary_fallback_not_truncated :
    generate_enhanced_summary c4FailingModel2 c4Loc "article text" ≠
      "Events at " ++ c4Loc.location ++ ": " ++ pyTake "met in Paris" 100 ++ "..." := by
  decide

/-- Claim C4 (corrected).  When the summarizing model call fails, the
crew summarizer tool returns exactly the deterministic fallback
`"Events at {name}: {context[:100]}..."`, but the MCP-variant
summarizer instead returns `"Events at {name}: {context}"` with the
untruncated context and no ellipsis (defaulting to
`"Information available in article"` when the context is missing). -/
theorem summarizer_fallback_strings
    (model3 : String → String → String → Option String)
    (model2 : String → String → Option String)
    (location context article : String) (loc : MCPLoc)
    (h3 : model3 location context article = none)
    (h2 : model2 loc.location article = none) :
    EventSummarizationTool_run model3 location context article =
      "Events at " ++ location ++ ": " ++ pyTake context 100 ++ "..."
    ∧ generate_enhanced_summary model2 loc article =
      "Events at " ++ loc.location ++ ": " ++
        loc.context.getD "Information available in article" := by
  constructor
  · rw [EventSummarizationTool_run, h3]
  · rw [generate_enhanced_summary, h2]

def c4FailingModel3 : String → String → String → Option String := fun _ _ _ => none

/-- Witness for C4: the two fallback strings at a concrete failing
model call, for a context longer than 100 characters. -/
theorem summarizer_fallback_strings_witness :
    EventSummarizationTool_run c4FailingModel3 "Rome"
      (String.mk (List.replicate 150 'x')) "article" =
      "Events at Rome: " ++ String.mk (List.replicate 100 'x') ++ "..."
    ∧ generate_enhanced_summary c4FailingModel2 c4Loc "article" =
      "Events at Paris: met in Paris" := by
  have h := summarizer_fallback_strings c4FailingModel3 c4FailingModel2
    "Rome" (String.mk (List.replicate 150 'x')) "article" c4Loc rfl rfl
  exact ⟨h.1.trans (by decide), h.2.trans (by decide)⟩

def c7Cand : LocationData :=
  { name := " 123 ", type := "city", confidence := "high", context := "ctx",
    latitude := some 1, longitude := some 2 }

/-- Counterexample for C7.  The candidate named `" 123 "` is dropped by
the code's post-filter (its *trimmed* name is purely numeric), but the
claim's literal condition keeps it: the raw name is not purely numeric,
and although it contains a digit it is not shorter than 5 characters. -/
theorem postfilter_claim_mismatch :
    droppedByFilter c7Cand = true ∧ claimDrop c7Cand = false := by
  decide

/-- Claim C7 (corrected).  A candidate reaching the post-filter is
dropped if and only if its trimmed name is under 2 characters, or its
lower-cased trimmed name is a stopword, or its *trimmed* name is purely
numeric, or its raw name contains a digit while being shorter than 5
characters.  (The code's extra `not loc.name` test is subsumed by the
length test.) -/
theorem postfilter_characterisation (loc : LocationData) :
    droppedByFilter loc = true ↔
      (pyLen (pyStrip loc.name) < 2
       ∨ nonLocationWords.contains (pyStrip (pyLower loc.name)) = true
       ∨ pyIsDigit (pyStrip loc.name) = true
       ∨ (pyHasDigit loc.name = true ∧ pyLen loc.name < 5)) := by
  have hsub : loc.name = "" → pyLen (pyStrip loc.name) < 2 := by
    intro h
    rw [h]
    decide
  simp only [droppedByFilter, Bool.or_eq_true, Bool.and_eq_true, beq_iff_eq,
    decide_eq_true_eq]
  tauto

/-- Counterexample input for C1: two successfully geocoded crew results
whose names differ only in leading whitespace. -/
def c1CrewResults : List LocationData :=
  [{ name := " Paris", type := "city", confidence := "high", context := "ctx1",
     latitude := some 48, longitude := some 2, full_address := some "addr",
     event_summary := some "s1" },
   { name := "Paris", type := "city", confidence := "high", context := "ctx2",
     latitude := some 48, longitude := some 2, full_address := some "addr",
     event_summary := some "s2" }]

/-- Counterexample for C1.  The deduplication key is computed from the
*untrimmed* name while output entries carry the *trimmed* name, so two
candidates named `" Paris"` and `"Paris"` (same type) both survive, and
the output contains two entries sharing the claimed key — lower-cased
(output) name concatenated with type. -/
theorem dedup_key_collision_in_output :
    ¬ List.Pairwise (fun a b => claimOutKey a ≠ claimOutKey b)
        ((process_article_sync (fun _ => c1CrewResults)
          "This is a long enough article text.").locations) := by
  decide

/-- Claim C1 (corrected).  The dedup-and-filter loop of
`process_article_sync` emits exactly the first occurrence of each
deduplication key among the candidates that pass the post-filter, where
the key is the lower-cased *untrimmed* name joined to the raw type with
an underscore; those keys are pairwise distinct over the emitted list.
(Because output names are trimmed afterwards, two output entries may
still share the claim's lower-cased-output-name-plus-type key when the
original names differed only in surrounding whitespace.) -/
theorem dedup_first_seen_refinement (ld : List LocationData) :
    processLoop [] ld =
      (dedupFirstBy [] (ld.filter (fun l => !droppedByFilter l))).map toLocDict
    ∧ List.Pairwise (fun a b => dedupKey a ≠ dedupKey b)
        (dedupFirstBy [] (ld.filter (fun l => !droppedByFilter l))) := by
  refine ⟨?_, pairwise_dedupFirstBy _ _⟩
  rw [processLoop, processLoopKeyed_eq_dedup, List.map_map]
  rfl

def c2Geocoder : String → Option GeoHit := fun _ => some ⟨10, 20, "Some Address"⟩

def c2Model : String → String → String → Option String := fun _ _ _ => some "model summary"

def c2GoodCand : CandDict :=
  { location := some "Paris", type := some "city", confidence := some "high",
    context := some "in Paris" }

def c2BadCand : CandDict :=
  { location := some "London", type := some "city", confidence := some "high",
    context := none }

/-- Counterexample for C2.  A candidate whose `context` key is missing
raises a `KeyError` inside the crew loop; the orchestrator catches it
and returns `[]` — discarding the result already produced for the good
candidate of the same article, which is returned when the bad candidate
is absent. -/
theorem bad_candidate_discards_article :
    extract_and_process_locations c2Geocoder c2Model "the article"
        (.ok [c2GoodCand, c2BadCand]) = []
    ∧ extract_and_process_locations c2Geocoder c2Model "the article"
        (.ok [c2GoodCand]) =
      [{ name := "Paris", type := "city", confidence := "high", context := "in Paris",
         latitude := some 10, longitude := some 20, full_address := some "Some Address",
         event_summary := some "model summary" }] := by
  decide

/-- Claim C2 (corrected).  Exceptions from any stage are caught at the
orchestrator boundary and a list (the empty list) is returned rather
than the exception propagating; but the `try/except` wraps the whole
per-candidate loop, so an exception on one candidate empties the entire
article's output, discarding the other candidates' results. -/
theorem orchestrator_boundary_catch (geocode : String → Option GeoHit)
    (model : String → String → String → Option String)
    (article_text : String) (cands : List CandDict) :
    extract_and_process_locations geocode model article_text (.error ()) = []
    ∧ (∀ e, processCandLoop geocode model article_text cands = .error e →
        extract_and_process_locations geocode model article_text (.ok cands) = [])
    ∧ (∀ l, processCandLoop geocode model article_text cands = .ok l →
        extract_and_process_locations geocode model article_text (.ok cands) = l) := by
  refine ⟨rfl, ?_, ?_⟩ <;> intro x h <;> simp [extract_and_process_locations, h]

/-- Witness for C2: at a concrete bad candidate the loop raises and the
orchestrator returns the empty list. -/
theorem orchestrator_boundary_catch_witness :
    processCandLoop c2Geocoder c2Model "the article" [c2BadCand] = .error ()
    ∧ extract_and_process_locations c2Geocoder c2Model "the article"
        (.ok [c2BadCand]) = [] := by
  refine ⟨rfl, ?_⟩
  exact (orchestrator_boundary_catch c2Geocoder c2Model "the article"
    [c2BadCand]).2.1 () rfl

/-- Any output entry of `process_article_sync` is the converted record
of some crew result for the effective text. -/
theorem mem_process_article_sync_locations {crew : String → List LocationData}
    {text : String} {d : LocDict}
    (hd : d ∈ (process_article_sync crew text).locations) :
    ∃ loc ∈ crew (effectiveText text), d = toLocDict loc := by
  rw [process_article_sync] at hd
  by_cases h1 : pyStrip text == ""
  · rw [if_pos h1] at hd
    cases hd
  · rw [if_neg h1] at hd
    by_cases h2 : pyLen (pyStrip text) < 10
    · rw [if_pos h2] at hd
      cases hd
    · rw [if_neg h2] at hd
      by_cases h3 : 50 < (sortedLocations crew (effectiveText text)).length
      · rw [if_pos h3] at hd
        exact mem_processLoop (mem_pySortDesc.mp (List.mem_of_mem_take hd))
      · rw [if_neg h3] at hd
        exact mem_processLoop (mem_pySortDesc.mp hd)

/-- Claim C5 (confirmed).  Every entry of the orchestrator's final
output (with the crew pipeline plugged in) has non-null latitude and
longitude — unresolved candidates are dropped inside
`extract_and_process_locations`, never emitted with nulled coordinates —
and the fallback geocoder returns `null` (not an error) when every
strategy is exhausted. -/
theorem output_coordinates_non_null (geocode : String → Option GeoHit)
    (model : String → String → String → Option String)
    (parse : String → Except Unit (List CandDict)) (article_text : String)
    (d : LocDict)
    (hd : d ∈ (process_article_sync
        (fun t => extract_and_process_locations geocode model t (parse t))
        article_text).locations) :
    d.latitude.isSome ∧ d.longitude.isSome
    ∧ ∀ (g : String → Option GeoHit) (loc : MCPLoc),
        (∀ q, g q = none) → (geocode_with_fallbacks g loc).1 = none := by
  obtain ⟨loc, hloc, rfl⟩ := mem_process_article_sync_locations hd
  have hc := extract_and_process_locations_coords geocode model
    (effectiveText article_text) (parse (effectiveText article_text)) loc hloc
  refine ⟨hc.1, hc.2, ?_⟩
  intro g loc' hg
  rw [geocode_with_fallbacks,
    (tryFallbackStrategies_spec g loc' (fallbackStrategies loc')).2]
  have hnil : (fallbackStrategies loc').dropWhile (fun q => (g q).isNone) = [] := by
    rw [List.dropWhile_eq_nil_iff]
    intro q _
    simp [hg q]
  rw [hnil]

def c5Geocoder : String → Option GeoHit := fun _ => some ⟨48, 2, "Paris, France"⟩

def c5Model : String → String → String → Option String := fun _ _ _ => some "summary text"

def c5Parse : String → Except Unit (List CandDict) := fun _ =>
  .ok [{ location := some "Paris", type := some "city", confidence := some "high",
         context := some "in Paris" }]

def c5Output : LocDict :=
  { name := "Paris", type := "city", confidence := "high", context := "in Paris",
    latitude := some 48, longitude := some 2, full_address := "Paris, France",
    event_summary := "summary text" }

def c5MissLoc : MCPLoc :=
  { location := "Atlantis", standardized_name := some "Atlantis", type := some "city" }

/-- Witness for C5: a concrete pipeline run whose single output entry
has non-null coordinates, and a geocoder that always misses returns
`null`. -/
theorem output_coordinates_non_null_witness :
    c5Output ∈ (process_article_sync
        (fun t => extract_and_process_locations c5Geocoder c5Model t (c5Parse t))
        "Meeting held in Paris this week.").locations
    ∧ c5Output.latitude.isSome
    ∧ (geocode_with_fallbacks (fun _ => none) c5MissLoc).1 = none := by
  have hmem : c5Output ∈ (process_article_sync
      (fun t => extract_and_process_locations c5Geocoder c5Model t (c5Parse t))
      "Meeting held in Paris this week.").locations := by decide
  have h := output_coordinates_non_null c5Geocoder c5Model c5Parse
    "Meeting held in Paris this week." c5Output hmem
  exact ⟨hmem, h.1, h.2.2 (fun _ => none) c5MissLoc (fun _ => rfl)⟩

def c6CrewResults : List LocationData :=
  [{ name := "Alpha", type := "city", confidence := "high", context := "c",
     latitude := some 0, longitude := some 10, full_address := some "a",
     event_summary := some "s" },
   { name := "Beta", type := "city", confidence := "low", context := "c",
     latitude := some 5, longitude := some 5, full_address := some "a",
     event_summary := some "s" }]

/-- Counterexample for C6.  `sort_key` tests the coordinates by Python
truthiness, so an entry with latitude `0` counts as having no
coordinates and sorts below a low-confidence entry with non-zero
coordinates; under the claim's key (`hasCoordinates` = non-null) the
earlier output entry's key is then *smaller* than the later one's,
violating the claimed adjacency invariant. -/
theorem claimed_sort_invariant_violated :
    ¬ List.Chain' (fun a b => keyLtB (claimSortKey a) (claimSortKey b) = false)
        ((process_article_sync (fun _ => c6CrewResults)
          "This is a long enough article text.").locations) := by
  intro h
  have hloc : (process_article_sync (fun _ => c6CrewResults)
      "This is a long enough article text.").locations =
      [{ name := "Beta", type := "city", confidence := "low", context := "c",
         latitude := some 5, longitude := some 5, full_address := "a",
         event_summary := "s" },
       { name := "Alpha", type := "city", confidence := "high", context := "c",
         latitude := some 0, longitude := some 10, full_address := "a",
         event_summary := "s" }] := by decide
  rw [hloc] at h
  exact absurd (List.chain'_cons.mp h).1 (by decide)

theorem chain'_take {α : Type} {R : α → α → Prop} :
    ∀ (n : Nat) {l : List α}, List.Chain' R l → List.Chain' R (l.take n)
  | 0, _, _ => by simp
  | _ + 1, [], _ => by simp
  | n + 1, a :: as, h => by
    rw [List.take_succ_cons, List.chain'_cons']
    refine ⟨?_, chain'_take n h.tail⟩
    intro y hy
    refine (List.chain'_cons'.mp h).1 y ?_
    cases as with
    | nil => simp at hy
    | cons b bs =>
      cases n with
      | zero => simp at hy
      | succ m => simpa using hy

/-- Claim C6 (corrected).  For every output list of the orchestrator
and every adjacent pair in it, the earlier entry's composite key is ≥
the later entry's — under the key actually computed by `sort_key`,
whose `hasCoordinates` component is `1` only when both coordinates are
non-null *and non-zero* (Python truthiness), with confidence rank and
name as in the claim. -/
theorem output_sorted_descending (crew : String → List LocationData)
    (article_text : String) :
    List.Chain' sortedRel ((process_article_sync crew article_text).locations) := by
  rw [process_article_sync]
  by_cases h1 : pyStrip article_text == ""
  · rw [if_pos h1]
    exact List.chain'_nil
  · rw [if_neg h1]
    by_cases h2 : pyLen (pyStrip article_text) < 10
    · rw [if_pos h2]
      exact List.chain'_nil
    · rw [if_neg h2]
      by_cases h3 : 50 < (sortedLocations crew (effectiveText article_text)).length
      · rw [if_pos h3]
        exact chain'_take 50 (chain'_pySortDesc _)
      · rw [if_neg h3]
        exact chain'_pySortDesc _

/-- Counterexample for C8.  On whitespace-only input the trimmed text
is under 10 characters, yet the orchestrator returns the empty list
*without* any "too short" notice: the emptiness guard fires before the
length guard and returns silently. -/
theorem whitespace_input_rejected_silently :
    pyLen (pyStrip "   ") < 10
    ∧ process_article_sync (fun _ => []) "   " = ⟨[], [], none⟩ := by
  decide

/-- Claim C8 (corrected).  Input validation of `process_article_sync`:
(i) text that is empty after trimming yields the empty list with *no*
notice; (ii) text that is non-empty after trimming but under 10 trimmed
characters yields the empty list with the "too short" notice, without
invoking the crew; (iii) when the trimmed text has at least 10
characters and the raw text exceeds 10,000 characters, the crew is
invoked on exactly the first 10,000 characters and a truncation notice
is surfaced. -/
theorem input_validation (crew : String → List LocationData) (article_text : String) :
    (pyStrip article_text = "" → process_article_sync crew article_text = ⟨[], [], none⟩)
    ∧ (pyStrip article_text ≠ "" → pyLen (pyStrip article_text) < 10 →
        process_article_sync crew article_text = ⟨[], [Notice.tooShort], none⟩)
    ∧ (10 ≤ pyLen (pyStrip article_text) → 10000 < pyLen article_text →
        (process_article_sync crew article_text).crewInput = some (pyTake article_text 10000)
        ∧ Notice.truncated ∈ (process_article_sync crew article_text).notices) := by
  refine ⟨?_, ?_, ?_⟩
  · intro h
    rw [process_article_sync, if_pos (beq_iff_eq.mpr h)]
  · intro h1 h2
    rw [process_article_sync, if_neg (fun hb => h1 (beq_iff_eq.mp hb)), if_pos h2]
  · intro h1 h2
    have hne : ¬ ((pyStrip article_text == "") = true) := by
      intro hb
      rw [beq_iff_eq.mp hb] at h1
      exact absurd h1 (by decide)
    have hlt : ¬ pyLen (pyStrip article_text) < 10 := by omega
    have heff : effectiveText article_text = pyTake article_text 10000 := by
      rw [effectiveText, if_pos h2]
    rw [process_article_sync, if_neg hne, if_neg hlt]
    by_cases h3 : 50 < (sortedLocations crew (effectiveText article_text)).length
    · rw [if_pos h3]
      exact ⟨by rw [heff], by rw [if_pos h2]; exact List.mem_cons_self _ _⟩
    · rw [if_neg h3]
      exact ⟨by rw [heff], by rw [if_pos h2]; exact List.mem_singleton.mpr rfl⟩

def c8LongText : String := ⟨List.replicate 10050 'a'⟩

theorem dropWhile_ws_replicate_a (n : Nat) :
    (List.replicate n 'a').dropWhile Char.isWhitespace = List.replicate n 'a' := by
  cases n with
  | zero => rfl
  | succ m =>
    rw [List.replicate_succ, List.dropWhile_cons]
    simp

theorem pyStripChars_replicate_a (n : Nat) :
    pyStripChars (List.replicate n 'a') = List.replicate n 'a' := by
  rw [pyStripChars, dropWhile_ws_replicate_a, List.reverse_replicate,
    dropWhile_ws_replicate_a, List.reverse_replicate]

/-- Witness for C8: the short-text branch at `"Hi."` and the truncation
branch at a 10,050-character text. -/
theorem input_validation_witness :
    process_article_sync (fun _ => []) "Hi." = ⟨[], [Notice.tooShort], none⟩
    ∧ (process_article_sync (fun _ => []) c8LongText).crewInput
        = some (pyTake c8LongText 10000) := by
  have h1 : 10 ≤ pyLen (pyStrip c8LongText) := by
    simp only [pyLen, pyStrip, c8LongText, pyStripChars_replicate_a,
      List.length_replicate]
    omega
  have h2 : 10000 < pyLen c8LongText := by
    simp only [pyLen, c8LongText, List.length_replicate]
    omega
  refine ⟨(input_validation (fun _ => []) "Hi.").2.1 (by decide) (by decide), ?_⟩
  exact ((input_validation (fun _ => []) c8LongText).2.2 h1 h2).1

/-- Claim C9 (confirmed).  The orchestrator's output never exceeds 50
entries; for accepted input the output is exactly the first 50 entries
of the sorted list (which is the whole list when at most 50 survive),
and when more than 50 survive a caller-visible notice carrying the
pre-cap count is surfaced. -/
theorem output_cap (crew : String → List LocationData) (article_text : String) :
    (process_article_sync crew article_text).locations.length ≤ 50
    ∧ (10 ≤ pyLen (pyStrip article_text) →
        (process_article_sync crew article_text).locations =
          (sortedLocations crew (effectiveText article_text)).take 50
        ∧ (50 < (sortedLocations crew (effectiveText article_text)).length →
            Notice.capped ((sortedLocations crew (effectiveText article_text)).length)
              ∈ (process_article_sync crew article_text).notices)) := by
  have hval : ∀ (h1 : ¬ ((pyStrip article_text == "") = true))
      (h2 : ¬ pyLen (pyStrip article_text) < 10), True := fun _ _ => trivial
  constructor
  · rw [process_article_sync]
    by_cases h1 : pyStrip article_text == ""
    · rw [if_pos h1]
      decide
    · rw [if_neg h1]
      by_cases h2 : pyLen (pyStrip article_text) < 10
      · rw [if_pos h2]
        decide
      · rw [if_neg h2]
        by_cases h3 : 50 < (sortedLocations crew (effectiveText article_text)).length
        · rw [if_pos h3]
          exact List.length_take_le _ _
        · rw [if_neg h3]
          show (sortedLocations crew (effectiveText article_text)).length ≤ 50
          omega
  · intro h10
    have hne : ¬ ((pyStrip article_text == "") = true) := by
      intro hb
      rw [beq_iff_eq.mp hb] at h10
      exact absurd h10 (by decide)
    have hlt : ¬ pyLen (pyStrip article_text) < 10 := by omega
    rw [process_article_sync, if_neg hne, if_neg hlt]
    by_cases h3 : 50 < (sortedLocations crew (effectiveText article_text)).length
    · rw [if_pos h3]
      exact ⟨rfl, fun _ => List.mem_append_right _ (List.mem_singleton.mpr rfl)⟩
    · rw [if_neg h3]
      refine ⟨?_, fun hc => absurd hc h3⟩
      show sortedLocations crew (effectiveText article_text) =
        (sortedLocations crew (effectiveText article_text)).take 50
      exact (List.take_of_length_le (by omega)).symm

def c9Crew : String → List LocationData := fun _ =>
  (List.range 51).map (fun i =>
    { name := "Place" ++ toString i, type := "city", confidence := "high",
      context := "c", latitude := some 1, longitude := some 2,
      full_address := some "a", event_summary := some "s" })

/-- Witness for C9: with 51 distinct surviving candidates the output
has exactly 50 entries and the cap notice carrying the pre-cap count 51
is surfaced. -/
theorem output_cap_witness :
    (process_article_sync c9Crew "This is a long enough article text.").locations.length ≤ 50
    ∧ Notice.capped 51
        ∈ (process_article_sync c9Crew "This is a long enough article text.").notices := by
  have h := output_cap c9Crew "This is a long enough article text."
  refine ⟨h.1, ?_⟩
  have hlen : (sortedLocations c9Crew
      (effectiveText "This is a long enough article text.")).length = 51 := by decide
  have hc := (h.2 (by decide)).2 (by rw [hlen]; decide)
  rw [hlen] at hc
  exact hc
